import Mathlib

/-!
Verification of the wallhaven client library's search-parameter builder
(`Parameters`, `Options`, `make_query`) and its pagination-following
collection fetcher (`Wallhaven.get_wallpapers_from_collection`).

Python strings are modelled as `List Char` (ASCII behaviour of `str.lower`
and of the digit test suffices for every string the development touches);
Python exceptions raised by the setters are modelled as an error result
carrying the state at the moment of the raise, so "leaves prior state
unchanged" is a provable statement rather than a modelling convention.
-/

namespace Wallhaven

/-- Characters of a Lean string literal: the model of a Python `str` value. -/
def chars (s : String) : List Char := s.toList

/-- One character of Python `str.lower` (ASCII range; every string in the
source's tables and in the claims is ASCII). -/
def pyLower (c : Char) : Char :=
  if 'A' ≤ c ∧ c ≤ 'Z' then Char.ofNat (c.toNat + 32) else c

/-- Python `s.lower()`. -/
def lowerChars (l : List Char) : List Char := l.map pyLower

/-- Python `s.lower().replace(" ", "_")`, the normalisation every
enum-matching setter applies first. -/
def normalize (l : List Char) : List Char :=
  (l.map pyLower).map (fun c => if c = ' ' then '_' else c)

/-- `utils/params.py get_str_from_bool`: `"".join(str(int(v)) for v in values)`. -/
def get_str_from_bool (values : List Bool) : List Char :=
  (values.map (fun b => if b then chars "1" else chars "0")).flatten

/-- The `Parameters.filters` dictionary (`params.py __init__`). -/
structure Filters where
  included : List (List Char)
  excluded : List (List Char)
  id : List Char
  like : List Char
  username : List Char
  ftype : List Char
  keyword : List Char
  deriving DecidableEq, Repr

/-- The filters as `Parameters.__init__` builds them: empty tag lists and
empty scalar filters. -/
def emptyFilters : Filters :=
  { included := [], excluded := [], id := [], like := [], username := [],
    ftype := [], keyword := [] }

/-- `utils/params.py make_query`: serialise the filters into the single
query string, clause by clause, by string concatenation. -/
def make_query (f : Filters) : List Char :=
  let q : List Char := []
  -- `if filters["id"]:` — exact-tag search suppresses the tag sets.
  let q :=
    if f.id ≠ [] then q ++ chars "id:" ++ f.id
    else
      let q := f.excluded.foldl (fun acc t => acc ++ '-' :: t) q
      f.included.foldl (fun acc t => acc ++ '+' :: t) q
  let q := if f.keyword ≠ [] then q ++ f.keyword else q
  let q := if f.username ≠ [] then q ++ chars " @" ++ f.username else q
  let q := if f.ftype ≠ [] then q ++ chars " type:" ++ f.ftype else q
  let q := if f.like ≠ [] then q ++ chars " like:" ++ f.like else q
  q

/-- The value stored under a key of `Parameters.params`: Python is
dynamically typed and `set_page` stores either a `str` or an `int`. -/
inductive PyVal where
  | str (s : List Char)
  | int (i : Int)
  deriving DecidableEq, Repr

/-- The `Parameters.params` dictionary. -/
structure Params where
  categories : List Char
  purity : List Char
  sorting : List Char
  order : List Char
  topRange : List Char
  page : PyVal
  q : List Char
  deriving DecidableEq, Repr

/-- `Parameters.reset_params`: the defaults the constructor installs. -/
def reset_params : Params :=
  { categories := chars "111", purity := chars "100",
    sorting := chars "date_added", order := chars "desc",
    topRange := chars "1M", page := .str (chars "1"), q := [] }

/-- The spec's error taxonomy for the setters: `invalidOption` stands for the
validation raise (`ValueError`/`TypeError` on a bad value in `params.py`,
`InvalidOptionError` in `options.py`); `indexError` for the uncaught
`IndexError` of `set_search_query` on an empty token. -/
inductive Err where
  | invalidOption
  | indexError
  deriving DecidableEq, Repr

/-- Result of a call that can raise: `err` carries the state at the raise. -/
inductive Res (ε α : Type) where
  | ok (a : α)
  | err (e : ε)
  deriving DecidableEq, Repr

/-- `Parameters.set_categories` (the `isinstance` guards are vacuous for
`Bool` arguments and are omitted). -/
def set_categories (p : Params) (general anime people : Bool) :
    Res (Err × Params) Params :=
  if !(general || anime || people) then .err (.invalidOption, p)
  else .ok { p with categories := get_str_from_bool [general, anime, people] }

/-- `Parameters.set_purity`. -/
def set_purity (p : Params) (sfw sketchy nsfw : Bool) :
    Res (Err × Params) Params :=
  if !(sfw || sketchy || nsfw) then .err (.invalidOption, p)
  else .ok { p with purity := get_str_from_bool [sfw, sketchy, nsfw] }

/-- `Parameters.set_sorting`'s `available_sortings` list (six entries — no
`toplist_beta`). -/
def available_sortings : List (List Char) :=
  [chars "date_added", chars "relevance", chars "random", chars "views",
   chars "favorites", chars "toplist"]

/-- `Parameters.set_sorting`. -/
def set_sorting (p : Params) (sorting : List Char) :
    Res (Err × Params) Params :=
  let s := normalize sorting
  if s ∉ available_sortings then .err (.invalidOption, p)
  else .ok { p with sorting := s }

/-- `Options.set_sorting`'s `available_sortings` list (seven entries,
including `toplist_beta`). -/
def options_available_sortings : List (List Char) :=
  [chars "date_added", chars "relevance", chars "random", chars "views",
   chars "favorites", chars "toplist", chars "toplist_beta"]

/-- `Options.set_sorting` (`options.py`). -/
def options_set_sorting (p : Params) (sorting : List Char) :
    Res (Err × Params) Params :=
  let s := normalize sorting
  if s ∉ options_available_sortings then .err (.invalidOption, p)
  else .ok { p with sorting := s }

/-- `Parameters.set_range`'s `range_mapping` (values case-sensitive; note the
source's key for `6M` is `last_six_weeks`). -/
def range_mapping : List (List Char × List Char) :=
  [(chars "last_day", chars "1d"), (chars "last_three_days", chars "3d"),
   (chars "last_week", chars "1w"), (chars "last_month", chars "1M"),
   (chars "last_three_months", chars "3M"), (chars "last_six_weeks", chars "6M"),
   (chars "last_year", chars "1y")]

/-- The `for key, value in range_mapping.items()` loop of `set_range`: first
entry whose key equals the normalised input, or whose lower-cased value does,
yields the (original-case) value; falling off the loop means a raise. -/
def lookupRange : List (List Char × List Char) → List Char → Option (List Char)
  | [], _ => none
  | (key, value) :: rest, t =>
    if t = key then some value
    else if t = lowerChars value then some value
    else lookupRange rest t

/-- `Parameters.set_range`. -/
def set_range (p : Params) (top_range : List Char) :
    Res (Err × Params) Params :=
  match lookupRange range_mapping (normalize top_range) with
  | some v => .ok { p with topRange := v }
  | none => .err (.invalidOption, p)

/-- Decimal rendering of a `Nat`, structured with an explicit recursion
bound so it evaluates by kernel reduction. -/
def natStrAux : Nat → Nat → List Char
  | 0, _ => []
  | fuel + 1, n =>
    if n < 10 then [Nat.digitChar n]
    else natStrAux fuel (n / 10) ++ [Nat.digitChar (n % 10)]

/-- Decimal rendering of a `Nat` (`n + 1` digits always suffice). -/
def natStr (n : Nat) : List Char := natStrAux (n + 1) n

/-- Python `str(page_number)` for the two runtime types `set_page` accepts. -/
def pyStr : PyVal → List Char
  | .str s => s
  | .int i => if i < 0 then '-' :: natStr i.natAbs else natStr i.natAbs

/-- Python `str.isnumeric` (nonempty, every character a digit; restricted to
the ASCII digits, which covers every input the claims mention). -/
def isnumericPy (l : List Char) : Bool := !l.isEmpty && l.all Char.isDigit

/-- `Parameters.set_page`: validates `str(page_number)` but then stores the
ORIGINAL `page_number` (the source's last line assigns `page_number`, not the
converted `page`). -/
def set_page (p : Params) (page_number : PyVal) : Res (Err × Params) Params :=
  let page := pyStr page_number
  if !(isnumericPy page) then .err (.invalidOption, p)
  else .ok { p with page := page_number }

/-- Python `query.split(" ")`: splitting on every single space, so the empty
string yields `[""]` and consecutive/leading/trailing spaces yield empty
tokens. -/
def splitSpaces : List Char → List (List Char)
  | [] => [[]]
  | c :: rest =>
    if c = ' ' then [] :: splitSpaces rest
    else
      match splitSpaces rest with
      | [] => [[c]]
      | w :: ws => (c :: w) :: ws

/-- One iteration of `Parameters.set_search_query`'s token loop. `none`
models the uncaught `IndexError` of `word[0]` on an empty token; the slice
reads (`word[0:2]`, `word[1:]`, …) never raise in Python and are `take`/
`drop` here. -/
def processWord (f : Filters) (w : List Char) : Option Filters :=
  match w with
  | [] => none
  | c :: _ =>
    if c = '@' then some { f with username := w.drop 1 }
    else if w.take 2 = chars "id" then some { f with id := w.drop 3 }
    else if w.take 4 = chars "type" then some { f with ftype := w.drop 5 }
    else if w.take 4 = chars "like" then some { f with like := w.drop 5 }
    else if c = '+' then
      some { f with included := f.included ++ [(lowerChars w).drop 1] }
    else if c = '-' then
      some { f with excluded := f.excluded ++ [(lowerChars w).drop 1] }
    else some { f with keyword := f.keyword ++ w }

/-- The whole token loop: an `IndexError` aborts it, keeping the filter
mutations the earlier tokens already made. -/
def processWords (f : Filters) : List (List Char) → Res Filters Filters
  | [] => .ok f
  | w :: ws =>
    match processWord f w with
    | none => .err f
    | some f2 => processWords f2 ws

/-- `Parameters.set_search_query`: run the token loop over the split query,
then re-serialise `params["q"]` with `make_query`. On the `IndexError` the
mutated filters persist and `params["q"]` is left as it was. -/
def set_search_query (f : Filters) (p : Params) (query : List Char) :
    Res (Err × Filters × Params) (Filters × Params) :=
  match processWords f (splitSpaces query) with
  | .err f2 => .err (.indexError, f2, p)
  | .ok f2 => .ok (f2, { p with q := make_query f2 })

/-- The effect of one token on the filters when it does not raise. -/
def applyToken (f : Filters) (w : List Char) : Filters :=
  (processWord f w).getD f

/-- The accumulated effect of a list of tokens. -/
def applyTokens (f : Filters) (ws : List (List Char)) : Filters :=
  ws.foldl applyToken f

/-- One page-fetch response of the collections endpoint, reduced to what
`get_wallpapers_from_collection` reads: the HTTP status, `json()["data"]`
(items abstracted to `Nat`), and `json()["meta"]["last_page"]`. -/
structure Page where
  status : Nat
  data : List Nat
  last_page : Nat

/-- The fetcher's error taxonomy: `PageNotFoundError` and
`RequestLimitError` of `main.py`, the spec's `NotFound` and
`RateLimitExceeded`. -/
inductive FetchError where
  | notFound
  | rateLimit
  deriving DecidableEq, Repr

/-- The inner `for wall in data` loop: append one item at a time; with a
nonzero limit, stop as soon as the accumulator reaches it (`if not limit:
continue` skips the check when the limit is 0). -/
def appendLimited (limit : Nat) : List Nat → List Nat → List Nat
  | wallpapers, [] => wallpapers
  | wallpapers, w :: rest =>
    let wallpapers2 := wallpapers ++ [w]
    if limit ≠ 0 ∧ limit ≤ wallpapers2.length then wallpapers2
    else appendLimited limit wallpapers2 rest

/-- The `while True` loop of `get_wallpapers_from_collection`, starting at
page 2 with page 1's items already accumulated. `fuel` bounds the recursion
(the Python loop has no such bound and can spin forever when a nonzero limit
exceeds the collection's size); `none` means the bound ran out. `count` is a
ghost observation: how many HTTP fetches have happened so far. -/
def fetchLoop (fetch : Nat → Page) (limit last_page : Nat) :
    Nat → Nat → List Nat → Nat → Option (Res FetchError (List Nat × Nat))
  | 0, _, _, _ => none
  | fuel + 1, page, wallpapers, count =>
    -- `if not limit and page > meta["last_page"]: break`
    if limit = 0 ∧ last_page < page then some (.ok (wallpapers, count))
    -- `if len(wallpapers) >= limit: break` — note: vacuously true when limit
    -- is 0, so the loop body is unreachable in that case.
    else if limit ≤ wallpapers.length then some (.ok (wallpapers, count))
    else
      let response := fetch page
      if response.status = 429 then some (.err .rateLimit)
      else
        fetchLoop fetch limit last_page fuel (page + 1)
          (appendLimited limit wallpapers response.data) (count + 1)

/-- `Wallhaven.get_wallpapers_from_collection`, from the first fetch on
(argument validation and URL formatting precede it in the source and touch
nothing the claims speak about). `fetch n` is the response to requesting
page `n`; the first request carries no page parameter and the remote's
default page is 1. The returned pair is (items, number of fetches). -/
def get_wallpapers_from_collection (fetch : Nat → Page) (limit : Nat)
    (fuel : Nat) : Option (Res FetchError (List Nat × Nat)) :=
  let response := fetch 1
  if response.status = 404 then some (.err .notFound)
  else if response.status = 429 then some (.err .rateLimit)
  else if response.data = [] then some (.ok ([], 1))
  else if limit ≠ 0 ∧ limit ≤ response.data.length then
    some (.ok (response.data.take limit, 1))
  else fetchLoop fetch limit response.last_page fuel 2 response.data 1

/-! ## Helper lemmas -/

/-- Folding string concatenation of sign-marked tags equals the flattened
map of sign-marked tags appended after the accumulator. -/
theorem foldl_mark_append (c : Char) (l : List (List Char)) :
    ∀ acc : List Char,
      l.foldl (fun acc t => acc ++ c :: t) acc =
        acc ++ (l.map (fun t => c :: t)).flatten := by
  induction l with
  | nil => intro acc; simp
  | cons w ws ih =>
    intro acc
    simp [List.foldl_cons, ih, List.append_assoc]

/-! ## C1 -/

/-- A collection of three pages of 24 items each (`last_page = 3`), every
fetch succeeding: the failing input of C1. -/
def pages24 : Nat → Page :=
  fun p => { status := 200, data := List.replicate 24 p, last_page := 3 }

/-- C1 (code bug): with limit 0 and `last_page = 3`, the loop's
`len(wallpapers) >= limit` break is vacuously true, so only ONE fetch
happens and only page 1's 24 items are returned — not the 3 fetches and 72
items the claim states. -/
theorem c1_limit_zero_single_fetch :
    get_wallpapers_from_collection pages24 0 10 =
      some (.ok (List.replicate 24 1, 1)) ∧
    (List.replicate 24 1).length = 24 ∧ (24 ≠ 72) ∧ ((1 : Nat) ≠ 3) := by
  decide

/-! ## C2 -/

/-- C2: `make_query` emits the clauses in the fixed order — the exclusive
`id:` clause (suppressing both tag sets) or else excluded tags then included
tags, then the keyword, then user, type and like clauses; and the spec's
worked example. -/
theorem c2_make_query_clause_order :
    (∀ f : Filters,
      make_query f =
        (if f.id ≠ [] then chars "id:" ++ f.id
         else (f.excluded.map (fun t => '-' :: t)).flatten ++
              (f.included.map (fun t => '+' :: t)).flatten)
        ++ f.keyword
        ++ (if f.username ≠ [] then chars " @" ++ f.username else [])
        ++ (if f.ftype ≠ [] then chars " type:" ++ f.ftype else [])
        ++ (if f.like ≠ [] then chars " like:" ++ f.like else [])) ∧
    make_query { emptyFilters with included := [chars "dog"],
                                   excluded := [chars "cat"],
                                   username := chars "bob" } =
      chars "-cat+dog @bob" := by
  constructor
  · intro f
    simp only [make_query, foldl_mark_append, List.nil_append]
    split_ifs <;> simp_all [List.append_assoc]
  · decide

/-! ## C5 -/

/-- C5: for any boolean triple with at least one `true`, `set_categories`
and `set_purity` store the 3-character '1'/'0' string in declared field
order; for the all-false triple each raises the validation error and the
state at the raise is the unchanged input state. -/
theorem c5_categories_purity (p : Params) (g a pe s sk n : Bool) :
    set_categories p g a pe =
      (if g || a || pe then
        .ok { p with categories := [if g then '1' else '0',
                                    if a then '1' else '0',
                                    if pe then '1' else '0'] }
       else .err (.invalidOption, p)) ∧
    set_purity p s sk n =
      (if s || sk || n then
        .ok { p with purity := [if s then '1' else '0',
                                if sk then '1' else '0',
                                if n then '1' else '0'] }
       else .err (.invalidOption, p)) ∧
    (get_str_from_bool [g, a, pe]).length = 3 := by
  refine ⟨?_, ?_, ?_⟩
  · cases g <;> cases a <;> cases pe <;> rfl
  · cases s <;> cases sk <;> cases n <;> rfl
  · cases g <;> cases a <;> cases pe <;> rfl

/-! ## C6 -/

/-- `set_range` succeeds exactly as its range lookup does. -/
theorem set_range_of_lookup (p : Params) (t v : List Char)
    (h : lookupRange range_mapping (normalize t) = some v) :
    set_range p t = .ok { p with topRange := v } := by
  simp [set_range, h]

/-- `set_range` raises when its range lookup finds nothing. -/
theorem set_range_of_lookup_none (p : Params) (t : List Char)
    (h : lookupRange range_mapping (normalize t) = none) :
    set_range p t = .err (.invalidOption, p) := by
  simp [set_range, h]

/-- C6: for every entry of the range table, an input normalising to the
long-form key or to the (case-folded) abbreviated value stores that entry's
abbreviated value in `topRange`; an input matching no key and no value
raises the validation error, leaving the state unchanged. -/
theorem c6_set_range (p : Params) (t : List Char) :
    (∀ kv, kv ∈ range_mapping →
      normalize t = kv.1 ∨ normalize t = lowerChars kv.2 →
      set_range p t = .ok { p with topRange := kv.2 }) ∧
    ((∀ kv, kv ∈ range_mapping →
      normalize t ≠ kv.1 ∧ normalize t ≠ lowerChars kv.2) →
      set_range p t = .err (.invalidOption, p)) := by
  constructor
  · intro kv hkv hm
    apply set_range_of_lookup
    simp only [range_mapping, List.mem_cons, List.not_mem_nil, or_false] at hkv
    rcases hkv with rfl | rfl | rfl | rfl | rfl | rfl | rfl <;>
      rcases hm with h | h <;> rw [h] <;> decide
  · intro hall
    apply set_range_of_lookup_none
    have h1 := hall (chars "last_day", chars "1d") (by decide)
    have h2 := hall (chars "last_three_days", chars "3d") (by decide)
    have h3 := hall (chars "last_week", chars "1w") (by decide)
    have h4 := hall (chars "last_month", chars "1M") (by decide)
    have h5 := hall (chars "last_three_months", chars "3M") (by decide)
    have h6 := hall (chars "last_six_weeks", chars "6M") (by decide)
    have h7 := hall (chars "last_year", chars "1y") (by decide)
    simp only [range_mapping, lookupRange]
    simp [h1.1, h1.2, h2.1, h2.2, h3.1, h3.2, h4.1, h4.2, h5.1, h5.2,
          h6.1, h6.2, h7.1, h7.2]

/-- C6 witness: "Last Month" and "1M" both store `topRange = "1M"`; "bogus"
raises and keeps the default state. -/
theorem c6_witness :
    set_range reset_params (chars "Last Month") =
      .ok { reset_params with topRange := chars "1M" } ∧
    set_range reset_params (chars "1M") =
      .ok { reset_params with topRange := chars "1M" } ∧
    set_range reset_params (chars "bogus") =
      .err (.invalidOption, reset_params) :=
  ⟨(c6_set_range reset_params (chars "Last Month")).1
      (chars "last_month", chars "1M") (by decide) (Or.inl (by decide)),
   (c6_set_range reset_params (chars "1M")).1
      (chars "last_month", chars "1M") (by decide) (Or.inr (by decide)),
   (c6_set_range reset_params (chars "bogus")).2 (by decide)⟩

/-! ## C7 -/

/-- C7 counterexample: the claim says every member of the seven-value
sorting enum is accepted, but `Parameters.set_sorting` rejects
`"toplist_beta"` — its `available_sortings` list has only six entries. -/
theorem c7_counterexample :
    set_sorting reset_params (chars "toplist_beta") =
      .err (.invalidOption, reset_params) := by
  decide

/-- C7 (amended): `Parameters.set_sorting` accepts, after normalisation,
exactly the six members {date_added, relevance, random, views, favorites,
toplist}; "Date Added" and "date_added" are equivalent; "bogus" raises the
validation error leaving the state unchanged; `Options.set_sorting` is the
revision that additionally accepts `toplist_beta`. -/
theorem c7_amended_sortings (p : Params) :
    (∀ s : List Char, (∃ p2, set_sorting p s = .ok p2) ↔
      normalize s ∈ [chars "date_added", chars "relevance", chars "random",
                     chars "views", chars "favorites", chars "toplist"]) ∧
    set_sorting p (chars "Date Added") = set_sorting p (chars "date_added") ∧
    set_sorting p (chars "bogus") = .err (.invalidOption, p) ∧
    options_set_sorting p (chars "toplist_beta") =
      .ok { p with sorting := chars "toplist_beta" } := by
  refine ⟨?_, ?_, ?_, ?_⟩
  · intro s
    constructor
    · rintro ⟨p2, hp⟩
      by_cases h : normalize s ∈ available_sortings
      · simpa [available_sortings] using h
      · simp [set_sorting, h] at hp
    · intro h
      have hmem : normalize s ∈ available_sortings := by
        simpa [available_sortings] using h
      refine ⟨{ p with sorting := normalize s }, ?_⟩
      simp [set_sorting, hmem]
  · have h : normalize (chars "Date Added") = normalize (chars "date_added") := by
      decide
    simp [set_sorting, h]
  · simp only [set_sorting]
    rw [if_pos (by decide)]
  · have h : normalize (chars "toplist_beta") = chars "toplist_beta" := by
      decide
    simp only [options_set_sorting, h]
    rw [if_neg (by decide)]

/-! ## C8 -/

/-- C8 (code bug): `set_page` validates `str(page_number)` but stores the
ORIGINAL argument, so an integer argument leaves an integer — not the
decimal string the claim states — under "page"; string arguments are stored
as strings, and a non-digit string raises leaving the state unchanged. -/
theorem c8_page_stored_unconverted :
    set_page reset_params (.int 2) = .ok { reset_params with page := .int 2 } ∧
    PyVal.int 2 ≠ PyVal.str (chars "2") ∧
    set_page reset_params (.str (chars "12")) =
      .ok { reset_params with page := .str (chars "12") } ∧
    set_page reset_params (.str (chars "a1")) =
      .err (.invalidOption, reset_params) := by
  decide

/-! ## C3 -/

/-- A filter state already holding an included tag and a keyword before
`set_search_query` is called. -/
def c3_prior : Filters :=
  { emptyFilters with included := [chars "dog"], keyword := chars "old" }

/-- The filter state after calling `set_search_query` on `"+cat"` from
`c3_prior`: the prior tag and keyword are still there. -/
def c3_after : Filters :=
  { c3_prior with included := [chars "dog", chars "cat"] }

/-- C3 counterexample: `set_search_query "+cat"` on a state already holding
the included tag "dog" and the keyword "old" yields an included list
`["dog", "cat"]` and keeps the old keyword — the state does NOT contain only
what this query parsed, refuting the claim that all tag/filter state is
replaced. -/
theorem c3_counterexample :
    set_search_query c3_prior reset_params (chars "+cat") =
      .ok (c3_after, { reset_params with q := chars "+dog+catold" }) ∧
    c3_after.included ≠ [chars "cat"] ∧ c3_after.keyword ≠ [] := by
  decide

/-- The kind of filter a token reaches in `set_search_query`'s dispatch. -/
inductive TokenKind where
  | user
  | idFilter
  | typeFilter
  | likeFilter
  | includedTag
  | excludedTag
  | keywordText
  deriving DecidableEq, Repr

/-- Which filter a token is dispatched to, by the source's conditions in
their source order (`none` for the empty token, which raises instead). -/
def tokenKind : List Char → Option TokenKind
  | [] => none
  | c :: r =>
    if c = '@' then some .user
    else if (c :: r).take 2 = chars "id" then some .idFilter
    else if (c :: r).take 4 = chars "type" then some .typeFilter
    else if (c :: r).take 4 = chars "like" then some .likeFilter
    else if c = '+' then some .includedTag
    else if c = '-' then some .excludedTag
    else some .keywordText

/-- A non-raising token leaves every scalar filter whose kind it is not
dispatched to unchanged. -/
theorem processWord_scalars (f : Filters) (w : List Char) (f1 : Filters)
    (h : processWord f w = some f1) :
    (tokenKind w ≠ some TokenKind.user → f1.username = f.username) ∧
    (tokenKind w ≠ some TokenKind.idFilter → f1.id = f.id) ∧
    (tokenKind w ≠ some TokenKind.typeFilter → f1.ftype = f.ftype) ∧
    (tokenKind w ≠ some TokenKind.likeFilter → f1.like = f.like) := by
  cases w with
  | nil => simp [processWord] at h
  | cons c r =>
    simp only [processWord] at h
    simp only [tokenKind]
    split_ifs at h ⊢ <;> cases h <;> simp_all

/-- The token loop leaves every scalar filter for whose kind the query holds
no token unchanged. -/
theorem processWords_scalars :
    ∀ (ws : List (List Char)) (f f2 : Filters),
      processWords f ws = .ok f2 →
      ((∀ w ∈ ws, tokenKind w ≠ some TokenKind.user) →
        f2.username = f.username) ∧
      ((∀ w ∈ ws, tokenKind w ≠ some TokenKind.idFilter) → f2.id = f.id) ∧
      ((∀ w ∈ ws, tokenKind w ≠ some TokenKind.typeFilter) →
        f2.ftype = f.ftype) ∧
      ((∀ w ∈ ws, tokenKind w ≠ some TokenKind.likeFilter) →
        f2.like = f.like) := by
  intro ws
  induction ws with
  | nil =>
    intro f f2 h
    cases h
    exact ⟨fun _ => rfl, fun _ => rfl, fun _ => rfl, fun _ => rfl⟩
  | cons w rest ih =>
    intro f f2 h
    simp only [processWords] at h
    cases hw : processWord f w with
    | none => rw [hw] at h; cases h
    | some f1 =>
      rw [hw] at h
      obtain ⟨hu1, hi1, ht1, hl1⟩ := processWord_scalars f w f1 hw
      obtain ⟨hu2, hi2, ht2, hl2⟩ := ih f1 f2 h
      refine ⟨fun hall => ?_, fun hall => ?_, fun hall => ?_, fun hall => ?_⟩
      · rw [hu2 (fun w' hw' => hall w' (List.mem_cons_of_mem w hw'))]
        exact hu1 (hall w (List.mem_cons_self w rest))
      · rw [hi2 (fun w' hw' => hall w' (List.mem_cons_of_mem w hw'))]
        exact hi1 (hall w (List.mem_cons_self w rest))
      · rw [ht2 (fun w' hw' => hall w' (List.mem_cons_of_mem w hw'))]
        exact ht1 (hall w (List.mem_cons_self w rest))
      · rw [hl2 (fun w' hw' => hall w' (List.mem_cons_of_mem w hw'))]
        exact hl1 (hall w (List.mem_cons_self w rest))

/-- A non-raising token only ever appends to the included/excluded tag lists
and to the keyword accumulator. -/
theorem processWord_accumulates (f : Filters) (w : List Char) (f1 : Filters)
    (h : processWord f w = some f1) :
    (∃ l, f1.included = f.included ++ l) ∧
    (∃ l, f1.excluded = f.excluded ++ l) ∧
    (∃ k, f1.keyword = f.keyword ++ k) := by
  cases w with
  | nil => simp [processWord] at h
  | cons c r =>
    simp only [processWord] at h
    split_ifs at h <;> cases h
    · exact ⟨⟨[], by simp⟩, ⟨[], by simp⟩, ⟨[], by simp⟩⟩
    · exact ⟨⟨[], by simp⟩, ⟨[], by simp⟩, ⟨[], by simp⟩⟩
    · exact ⟨⟨[], by simp⟩, ⟨[], by simp⟩, ⟨[], by simp⟩⟩
    · exact ⟨⟨[], by simp⟩, ⟨[], by simp⟩, ⟨[], by simp⟩⟩
    · exact ⟨⟨[(lowerChars (c :: r)).drop 1], by simp⟩, ⟨[], by simp⟩,
             ⟨[], by simp⟩⟩
    · exact ⟨⟨[], by simp⟩, ⟨[(lowerChars (c :: r)).drop 1], by simp⟩,
             ⟨[], by simp⟩⟩
    · exact ⟨⟨[], by simp⟩, ⟨[], by simp⟩, ⟨c :: r, by simp⟩⟩

/-- The token loop only ever appends to the included/excluded tag lists and
to the keyword accumulator. -/
theorem processWords_accumulates :
    ∀ (ws : List (List Char)) (f f2 : Filters),
      processWords f ws = .ok f2 →
      (∃ l, f2.included = f.included ++ l) ∧
      (∃ l, f2.excluded = f.excluded ++ l) ∧
      (∃ k, f2.keyword = f.keyword ++ k) := by
  intro ws
  induction ws with
  | nil =>
    intro f f2 h
    cases h
    exact ⟨⟨[], by simp⟩, ⟨[], by simp⟩, ⟨[], by simp⟩⟩
  | cons w rest ih =>
    intro f f2 h
    simp only [processWords] at h
    cases hw : processWord f w with
    | none => rw [hw] at h; cases h
    | some f1 =>
      rw [hw] at h
      obtain ⟨⟨l1, hl1⟩, ⟨l2, hl2⟩, ⟨k1, hk1⟩⟩ := processWord_accumulates f w f1 hw
      obtain ⟨⟨l3, hl3⟩, ⟨l4, hl4⟩, ⟨k2, hk2⟩⟩ := ih f1 f2 h
      exact ⟨⟨l1 ++ l3, by rw [hl3, hl1, List.append_assoc]⟩,
             ⟨l2 ++ l4, by rw [hl4, hl2, List.append_assoc]⟩,
             ⟨k1 ++ k2, by rw [hk2, hk1, List.append_assoc]⟩⟩

/-- C3 (amended): `set_search_query` MERGES into the existing tag/filter
state rather than replacing it — on a successful call the included and
excluded tag lists and the keyword accumulator each extend their prior
values (everything held before the call is retained), the scalar filters
(username, id, type, like) are overwritten only when the query holds a
token of that kind and are retained otherwise, and `params["q"]` is
re-serialised from the merged filters. -/
theorem c3_set_search_query_accumulates (f : Filters) (p : Params)
    (q : List Char) (f2 : Filters) (p2 : Params)
    (h : set_search_query f p q = .ok (f2, p2)) :
    (∃ l, f2.included = f.included ++ l) ∧
    (∃ l, f2.excluded = f.excluded ++ l) ∧
    (∃ k, f2.keyword = f.keyword ++ k) ∧
    ((∀ w ∈ splitSpaces q, tokenKind w ≠ some TokenKind.user) →
      f2.username = f.username) ∧
    ((∀ w ∈ splitSpaces q, tokenKind w ≠ some TokenKind.idFilter) →
      f2.id = f.id) ∧
    ((∀ w ∈ splitSpaces q, tokenKind w ≠ some TokenKind.typeFilter) →
      f2.ftype = f.ftype) ∧
    ((∀ w ∈ splitSpaces q, tokenKind w ≠ some TokenKind.likeFilter) →
      f2.like = f.like) ∧
    p2 = { p with q := make_query f2 } := by
  simp only [set_search_query] at h
  cases hw : processWords f (splitSpaces q) with
  | err f3 => rw [hw] at h; cases h
  | ok f3 =>
    rw [hw] at h
    obtain ⟨h1, h2, h3⟩ := processWords_accumulates (splitSpaces q) f f3 hw
    obtain ⟨h4, h5, h6, h7⟩ := processWords_scalars (splitSpaces q) f f3 hw
    cases h
    exact ⟨h1, h2, h3, h4, h5, h6, h7, rfl⟩

/-- C3 witness: the amended theorem at the concrete call of the
counterexample — "dog" and "old" survive the call, and the query "+cat",
holding no scalar-filter token, leaves all four scalar filters as they
were. -/
theorem c3_witness :
    (∃ l, c3_after.included = c3_prior.included ++ l) ∧
    (∃ l, c3_after.excluded = c3_prior.excluded ++ l) ∧
    (∃ k, c3_after.keyword = c3_prior.keyword ++ k) ∧
    ((∀ w ∈ splitSpaces (chars "+cat"),
        tokenKind w ≠ some TokenKind.user) →
      c3_after.username = c3_prior.username) ∧
    ((∀ w ∈ splitSpaces (chars "+cat"),
        tokenKind w ≠ some TokenKind.idFilter) →
      c3_after.id = c3_prior.id) ∧
    ((∀ w ∈ splitSpaces (chars "+cat"),
        tokenKind w ≠ some TokenKind.typeFilter) →
      c3_after.ftype = c3_prior.ftype) ∧
    ((∀ w ∈ splitSpaces (chars "+cat"),
        tokenKind w ≠ some TokenKind.likeFilter) →
      c3_after.like = c3_prior.like) ∧
    ({ reset_params with q := chars "+dog+catold" } : Params) =
      { reset_params with q := make_query c3_after } :=
  c3_set_search_query_accumulates c3_prior reset_params (chars "+cat")
    c3_after { reset_params with q := chars "+dog+catold" } (by decide)

/-! ## C10 -/

/-- A nonempty token never raises: its effect is `applyToken`. -/
theorem processWord_cons (f : Filters) (c : Char) (r : List Char) :
    processWord f (c :: r) = some (applyToken f (c :: r)) := by
  simp only [applyToken]
  cases h : processWord f (c :: r) with
  | some f1 => simp
  | none =>
    simp only [processWord] at h
    split_ifs at h

/-- When the split query contains an empty token, the token loop raises at
the first empty token, with the effects of all tokens before it applied. -/
theorem processWords_err_of_mem_nil :
    ∀ (ws : List (List Char)) (f : Filters), [] ∈ ws →
      processWords f ws =
        .err (applyTokens f (ws.takeWhile (fun w => !w.isEmpty))) := by
  intro ws
  induction ws with
  | nil => intro f h; simp at h
  | cons w rest ih =>
    intro f hmem
    cases w with
    | nil => simp [processWords, processWord, applyTokens, List.takeWhile]
    | cons c r =>
      have hmem2 : [] ∈ rest := by
        rcases List.mem_cons.mp hmem with h | h
        · cases h
        · exact h
      simp only [processWords, processWord_cons]
      rw [ih (applyToken f (c :: r)) hmem2]
      simp [applyTokens, List.takeWhile_cons]

/-- C10: whenever the space-split of the query has an empty token — the
empty query, consecutive spaces, a leading or trailing space —
`set_search_query` raises the uncaught `IndexError` (not the validation
error `InvalidOption`), the filter mutations of the tokens before the first
empty one persist, and `params["q"]` is left untouched. -/
theorem c10_empty_token_index_error (f : Filters) (p : Params)
    (q : List Char) (h : [] ∈ splitSpaces q) :
    set_search_query f p q =
      .err (.indexError,
            applyTokens f ((splitSpaces q).takeWhile (fun w => !w.isEmpty)),
            p) ∧
    Err.indexError ≠ Err.invalidOption := by
  refine ⟨?_, by decide⟩
  simp only [set_search_query, processWords_err_of_mem_nil (splitSpaces q) f h]

/-- C10 witness: the trailing-space query `"+cat "` raises after the token
`"+cat"` has already appended the tag. -/
theorem c10_witness :
    set_search_query emptyFilters reset_params (chars "+cat ") =
      .err (.indexError,
            applyTokens emptyFilters
              ((splitSpaces (chars "+cat ")).takeWhile (fun w => !w.isEmpty)),
            reset_params) ∧
    Err.indexError ≠ Err.invalidOption :=
  c10_empty_token_index_error emptyFilters reset_params (chars "+cat ")
    (by decide)

/-! ## C4 -/

/-- With a nonzero limit, appending a page's items stops at the limit: the
accumulator never grows past it. -/
theorem appendLimited_length (limit : Nat) (hl : limit ≠ 0) :
    ∀ (data wallpapers : List Nat), wallpapers.length < limit →
      (appendLimited limit wallpapers data).length ≤ limit := by
  intro data
  induction data with
  | nil =>
    intro w hw
    simpa [appendLimited] using Nat.le_of_lt hw
  | cons x rest ih =>
    intro w hw
    simp only [appendLimited]
    split_ifs with hcond
    · simp only [List.length_append, List.length_cons, List.length_nil]
      omega
    · apply ih
      have h2 : ¬ limit ≤ (w ++ [x]).length := fun hle => hcond ⟨hl, hle⟩
      simp only [List.length_append, List.length_cons, List.length_nil] at h2 ⊢
      omega

/-- Appending a page's items only extends the accumulator: nothing already
accumulated is dropped. -/
theorem appendLimited_extends (limit : Nat) :
    ∀ (data wallpapers : List Nat),
      ∃ t, appendLimited limit wallpapers data = wallpapers ++ t := by
  intro data
  induction data with
  | nil => intro w; exact ⟨[], by simp [appendLimited]⟩
  | cons x rest ih =>
    intro w
    simp only [appendLimited]
    split_ifs with hcond
    · exact ⟨[x], rfl⟩
    · obtain ⟨t, ht⟩ := ih (w ++ [x])
      exact ⟨[x] ++ t, by rw [ht, List.append_assoc]⟩

/-- With a nonzero limit, any list the page loop returns has at most `limit`
items (given the accumulator it starts from already respects the limit). -/
theorem fetchLoop_ok_length (fetch : Nat → Page) (limit last_page : Nat)
    (hl : limit ≠ 0) :
    ∀ (fuel page count : Nat) (wallpapers w : List Nat) (n : Nat),
      wallpapers.length ≤ limit →
      fetchLoop fetch limit last_page fuel page wallpapers count =
        some (.ok (w, n)) →
      w.length ≤ limit := by
  intro fuel
  induction fuel with
  | zero =>
    intro page count walls w n hle h
    simp [fetchLoop] at h
  | succ fuel ih =>
    intro page count walls w n hle h
    simp only [fetchLoop] at h
    split_ifs at h with h1 h2 h3
    · exact absurd h1.1 hl
    · obtain ⟨rfl, rfl⟩ : walls = w ∧ count = n := by simpa using h
      exact hle
    · simp at h
    · have hlt : walls.length < limit := by omega
      exact ih (page + 1) (count + 1) _ w n
        (appendLimited_length limit hl _ walls hlt) h

/-- The page loop only ever extends the accumulator it starts from. -/
theorem fetchLoop_ok_extends (fetch : Nat → Page) (limit last_page : Nat) :
    ∀ (fuel page count : Nat) (wallpapers w : List Nat) (n : Nat),
      fetchLoop fetch limit last_page fuel page wallpapers count =
        some (.ok (w, n)) →
      ∃ t, w = wallpapers ++ t := by
  intro fuel
  induction fuel with
  | zero =>
    intro page count walls w n h
    simp [fetchLoop] at h
  | succ fuel ih =>
    intro page count walls w n h
    simp only [fetchLoop] at h
    split_ifs at h with h1 h2 h3
    · obtain ⟨rfl, rfl⟩ : walls = w ∧ count = n := by simpa using h
      exact ⟨[], by simp⟩
    · obtain ⟨rfl, rfl⟩ : walls = w ∧ count = n := by simpa using h
      exact ⟨[], by simp⟩
    · simp at h
    · obtain ⟨t2, ht2⟩ := ih (page + 1) (count + 1) _ w n h
      obtain ⟨t1, ht1⟩ := appendLimited_extends limit (fetch page).data walls
      exact ⟨t1 ++ t2, by rw [ht2, ht1, List.append_assoc]⟩

/-- C4: with a nonzero limit, a successful `get_wallpapers_from_collection`
returns at most `limit` items; page 1's items (capped at the limit) are an
untruncated prefix of the result; and when page 1 already holds at least
`limit` items the result is exactly its first `limit` items after a single
fetch. -/
theorem c4_limit_nonzero_bounds (fetch : Nat → Page) (limit fuel : Nat)
    (w : List Nat) (n : Nat) (hl : limit ≠ 0)
    (h : get_wallpapers_from_collection fetch limit fuel =
      some (.ok (w, n))) :
    w.length ≤ limit ∧ (∃ t, w = (fetch 1).data.take limit ++ t) ∧
    (limit ≤ (fetch 1).data.length →
      w = (fetch 1).data.take limit ∧ n = 1) := by
  simp only [get_wallpapers_from_collection] at h
  split_ifs at h with h1 h2 h3 h4
  · simp at h
  · simp at h
  · obtain ⟨rfl, rfl⟩ : ([] : List Nat) = w ∧ 1 = n := by simpa using h
    refine ⟨by simp, ⟨[], by simp [h3]⟩, fun hge => ?_⟩
    rw [h3] at hge
    simp at hge
    omega
  · obtain ⟨rfl, rfl⟩ : (fetch 1).data.take limit = w ∧ 1 = n := by
      simpa using h
    refine ⟨?_, ⟨[], by simp⟩, fun _ => ⟨rfl, rfl⟩⟩
    rw [List.length_take]
    exact Nat.min_le_left _ _
  · have hlt : (fetch 1).data.length < limit := by
      by_contra hc
      exact h4 ⟨hl, by omega⟩
    have hlen := fetchLoop_ok_length fetch limit (fetch 1).last_page hl
      fuel 2 1 (fetch 1).data w n (Nat.le_of_lt hlt) h
    obtain ⟨t, ht⟩ := fetchLoop_ok_extends fetch limit (fetch 1).last_page
      fuel 2 1 (fetch 1).data w n h
    have htake : (fetch 1).data.take limit = (fetch 1).data :=
      List.take_of_length_le (Nat.le_of_lt hlt)
    exact ⟨hlen, ⟨t, by rw [ht, htake]⟩, fun hge => absurd hge (by omega)⟩

/-- C4 witness: three pages of 24 items, limit 10 — page 1 already covers
the limit, the result is its first 10 items, and exactly one fetch
happened. -/
theorem c4_witness :
    (List.replicate 10 1).length ≤ 10 ∧
    (∃ t, List.replicate 10 1 = (pages24 1).data.take 10 ++ t) ∧
    (10 ≤ (pages24 1).data.length →
      List.replicate 10 1 = (pages24 1).data.take 10 ∧ 1 = 1) :=
  c4_limit_nonzero_bounds pages24 10 5 (List.replicate 10 1) 1 (by decide)
    (by decide)

/-! ## C9 -/

/-- A collection whose every fetch answers HTTP 404. -/
def pages404 : Nat → Page :=
  fun _ => { status := 404, data := [], last_page := 1 }

/-- A collection whose every fetch answers HTTP 429. -/
def pages429 : Nat → Page :=
  fun _ => { status := 429, data := [], last_page := 1 }

/-- C9: a 404 on the very first fetch fails with `NotFound`; a 429 on the
first fetch, or on any page the loop fetches, fails with
`RateLimitExceeded`; and on the 404 failure no items are returned — the
result is never a success carrying a partial accumulation. -/
theorem c9_fetch_errors (fetch : Nat → Page)
    (limit fuel last_page page count : Nat) (wallpapers : List Nat) :
    ((fetch 1).status = 404 →
      get_wallpapers_from_collection fetch limit fuel =
        some (.err .notFound)) ∧
    ((fetch 1).status ≠ 404 → (fetch 1).status = 429 →
      get_wallpapers_from_collection fetch limit fuel =
        some (.err .rateLimit)) ∧
    (¬(limit = 0 ∧ last_page < page) → wallpapers.length < limit →
      (fetch page).status = 429 →
      fetchLoop fetch limit last_page (fuel + 1) page wallpapers count =
        some (.err .rateLimit)) ∧
    ((fetch 1).status = 404 → ∀ w n,
      get_wallpapers_from_collection fetch limit fuel ≠
        some (.ok (w, n))) := by
  refine ⟨?_, ?_, ?_, ?_⟩
  · intro h404
    simp [get_wallpapers_from_collection, h404]
  · intro hn404 h429
    simp [get_wallpapers_from_collection, hn404, h429]
  · intro hc1 hc2 h429
    simp only [fetchLoop]
    rw [if_neg hc1, if_neg (by omega), if_pos h429]
  · intro h404 w n
    simp [get_wallpapers_from_collection, h404]

/-- C9 witness: the error paths at concrete fetchers — a 404 first fetch, a
429 first fetch, and a 429 inside the loop, none returning items. -/
theorem c9_witness :
    get_wallpapers_from_collection pages404 0 5 = some (.err .notFound) ∧
    get_wallpapers_from_collection pages429 0 5 = some (.err .rateLimit) ∧
    fetchLoop pages429 5 3 6 2 [0] 1 = some (.err .rateLimit) ∧
    (∀ w n,
      get_wallpapers_from_collection pages404 0 5 ≠ some (.ok (w, n))) :=
  ⟨(c9_fetch_errors pages404 0 5 3 2 1 [0]).1 (by decide),
   (c9_fetch_errors pages429 0 5 3 2 1 [0]).2.1 (by decide) (by decide),
   (c9_fetch_errors pages429 5 5 3 2 1 [0]).2.2.1 (by decide) (by decide)
     (by decide),
   (c9_fetch_errors pages404 0 5 3 2 1 [0]).2.2.2 (by decide)⟩

end Wallhaven
